import Mathlib

/-!
Verification model of the CAMB adapter module `cobaya/theories/camb/camb.py`.

The module mediates between a Bayesian sampler and the external CAMB solver.
We embed, as executable Lean definitions, the parts of the module with
algorithmic content: the requirement-aggregation logic of `camb.needs`
(redshift-grid merging, collector registry construction for matter power
spectra, stage flags), the error dispatch of the two `calculate` entry points
and of `camb.set`, the derived-parameter fallback chain of `camb._get_derived`
and `camb._get_derived_output`, the ambiguous-expansion-rate check of
`CambTransfers.initialize_with_params`, and the unit-factor selection of
`camb.get_Cl`.  Numeric values that the Python code holds as floats (redshifts,
accuracy settings, temperatures) are modelled as rationals: the modelled logic
only ever compares, sorts and deduplicates them, so any linear order is
faithful.
-/

namespace CobayaCamb

/-- Association-list lookup, modelling Python `dict.get` / `dict[k]` access
(first matching key wins; the model below never stores duplicate keys). -/
def lookupA {α β : Type} [DecidableEq α] : List (α × β) → α → Option β
  | [], _ => none
  | (k, v) :: rest, a => if k = a then some v else lookupA rest a

/-- Association-list insertion, modelling Python `dict[k] = v`: if the key is
present its value is replaced in place (dicts keep insertion order), otherwise
the binding is appended. -/
def insertA {α β : Type} [DecidableEq α] : List (α × β) → α → β → List (α × β)
  | [], k, v => [(k, v)]
  | (k0, v0) :: rest, k, v =>
      if k0 = k then (k0, v) :: rest else (k0, v0) :: insertA rest k v

/-! ## Redshift-grid merging (`camb.add_to_redshifts`, `camb._combine_z`)

`np.unique` returns the sorted (ascending) deduplicated elements of its input;
`np.sort` sorts without deduplicating; `[::-1]` reverses.
-/

/-- Model of `np.sort`: ascending sort, duplicates kept. -/
def npSort (l : List ℚ) : List ℚ := List.insertionSort (· ≤ ·) l

/-- Model of `np.unique`: deduplicate, then sort ascending. -/
def npUnique (l : List ℚ) : List ℚ := List.insertionSort (· ≤ ·) l.dedup

/-- `camb.add_to_redshifts` (camb.py lines 425-427):
`extra_args["redshifts"] = np.sort(np.unique(np.concatenate((np.atleast_1d(z),
extra_args.get("redshifts", [])))))[::-1]` — the new redshifts are prepended,
the union is deduplicated, sorted ascending and reversed to descending.
(`np.unique` already sorts, so the outer `np.sort` is kept but is a no-op.) -/
def add_to_redshifts (z existing : List ℚ) : List ℚ :=
  (npSort (npUnique (z ++ existing))).reverse

/-- `camb._combine_z` (camb.py lines 429-435): if a collector for the product
already exists, return `np.sort(np.unique(np.concatenate((c.kwargs["z"],
np.atleast_1d(v["z"])))))`; otherwise just `np.sort(np.atleast_1d(v["z"]))`
— note: no `np.unique` on this first branch. -/
def combine_z (existing : Option (List ℚ)) (z : List ℚ) : List ℚ :=
  match existing with
  | some c => npSort (npUnique (c ++ z))
  | none => npSort z

/-- The perturbation redshift grid (`extra_args["redshifts"]`) produced by a
sequence of `add_to_redshifts` calls, one per requirement request naming a
perturbation-grid product (`fsigma8`, `Pk_interpolator`/`Pk_grid`), starting
from the default `extra_args.get("redshifts", [])` = `[]`. -/
def perturbationGrid (reqs : List (List ℚ)) : List ℚ :=
  reqs.foldl (fun s z => add_to_redshifts z s) []

/-- The `z` keyword of a background-distance collector (`Hubble`,
`angular_diameter_distance`, `comoving_radial_distance`) after a sequence of
requests for that product, each processed through `_combine_z` against the
collector state (`none` = no collector yet). -/
def backgroundGrid (reqs : List (List ℚ)) : Option (List ℚ) :=
  reqs.foldl (fun s z => some (combine_z s z)) none

/-! ## Stage flags (`camb.needs`, camb.py lines 294-423)

`camb.needs` loops over the accumulated requirements mapping and dispatches on
the product name.  The state below is the slice of the adapter's mutable state
holding the stage flags together with the solver-configuration entries they
read (`extra_args["lmax"]`, `extra_args["lens_potential_accuracy"]`).  A `Bool`
field written by a Python statement `if cond: flag = True` is modelled as
`flag := flag || cond`, which has identical semantics (set on `cond`, unchanged
otherwise).
-/

structure FlagState where
  wantCMB : Bool
  wantCls : Bool
  wantTensors : Bool
  needsLensingCross : Bool
  nonLinearSources : Bool
  nonLinearPk : Bool
  needsPerts : Bool
  limber : Bool
  lmax : ℕ
  lensPotentialAccuracy : Option ℚ
  deriving DecidableEq

/-- One accumulated requirement, reduced to the parts read by the flag logic:
`cl` carries the merged `lmax` request and the lower-cased spectrum labels;
`sourceCl` carries its optional `lmax`, its `non_linear` option and the
effective `limber` value (`v.get("limber", True)`); `pk` covers
`Pk_interpolator`/`Pk_grid` with its `nonlinear` option; `background` covers
`Hubble`/`angular_diameter_distance`/`comoving_radial_distance`, which touch
no flag. -/
inductive FlagReq where
  | cl (lmax : ℕ) (cls : List String)
  | sourceCl (lmax : Option ℕ) (nonLinear : Bool) (limber : Bool)
  | pk (nonlinear : Bool)
  | fsigma8
  | background
  deriving DecidableEq

/-- The lensing cross-spectrum labels `{"pt", "pe", "tp", "ep"}` of line 330. -/
def clCrossSpectra : List String := [("pt"), ("pe"), ("tp"), ("ep")]

/-- One iteration of the `camb.needs` requirement loop, restricted to the flag
state.  Branch by branch (line numbers from camb.py):
* `Cl` (309-333): merge `lmax`; set `needs_perts`, `Want_CMB`, `WantCls`;
  if `"pp"` is requested and `lens_potential_accuracy` is unset, default it
  to 1; then *assign* `non_linear_sources :=
  extra_args.get("lens_potential_accuracy", 1) >= 1`; set
  `_needs_lensing_cross` when a cross label is requested.
* `source_Cl` (371-388): assign `limber`; or-in `non_linear`; merge `lmax`;
  set `needs_perts` and `WantCls`.
* `Pk_interpolator`/`Pk_grid` (348-370): or-in `non_linear_pk`; set
  `needs_perts` (the registry/units parts are modelled in `pkNeedsBranch`).
* `fsigma8` (342-347): set `needs_perts`.
* background distances (334-341): no flag effect.
`WantTensors` is written only by `camb.initialize_with_params` (285-286),
never by `needs`. -/
def needsStep (s : FlagState) (r : FlagReq) : FlagState :=
  match r with
  | .cl lm cls =>
      let lpa : Option ℚ :=
        if ("pp") ∈ cls ∧ s.lensPotentialAccuracy = none then some 1
        else s.lensPotentialAccuracy
      { s with
        lmax := max lm s.lmax
        needsPerts := true
        wantCMB := true
        wantCls := true
        lensPotentialAccuracy := lpa
        nonLinearSources := decide (1 ≤ lpa.getD 1)
        needsLensingCross :=
          s.needsLensingCross || cls.any (fun c => c ∈ clCrossSpectra) }
  | .sourceCl lm nl lim =>
      { s with
        limber := lim
        nonLinearSources := s.nonLinearSources || nl
        lmax := match lm with | some m => max m s.lmax | none => s.lmax
        needsPerts := true
        wantCls := true }
  | .pk nl =>
      { s with nonLinearPk := s.nonLinearPk || nl, needsPerts := true }
  | .fsigma8 => { s with needsPerts := true }
  | .background => s

/-- One `needs(**requirements)` call: the loop over the accumulated
requirements mapping. -/
def processNeeds (s : FlagState) (reqs : List FlagReq) : FlagState :=
  reqs.foldl needsStep s

/-- A sequence of `needs` calls; call `i` processes the whole requirements
mapping accumulated so far. -/
def processCalls (s : FlagState) (calls : List (List FlagReq)) : FlagState :=
  calls.foldl processNeeds s

/-- Flag state right after `camb.initialize` (lines 245-255): every flag off,
`extra_args["lens_potential_accuracy"]` as configured by the user. -/
def initFlagState (lpa : Option ℚ) : FlagState :=
  { wantCMB := false, wantCls := false, wantTensors := false,
    needsLensingCross := false, nonLinearSources := false,
    nonLinearPk := false, needsPerts := false, limber := false,
    lmax := 0, lensPotentialAccuracy := lpa }

/-- The configured lensing accuracy is unset or at least 1 (the situation in
every run that does not explicitly configure `lens_potential_accuracy`
below 1). -/
def lpaOK (s : FlagState) : Prop :=
  s.lensPotentialAccuracy = none ∨ ∃ a, s.lensPotentialAccuracy = some a ∧ 1 ≤ a

/-- The options of a `Pk_interpolator`/`Pk_grid` requirement read by the
branch.  An absent `vars_pairs` option arrives as falsy (`None`/`[]`) and is
modelled as the empty list. -/
structure PkReq where
  k_max : ℚ
  z : List ℚ
  vars_pairs : List (String × String)
  nonlinear : Bool
  hubble_units : Bool
  k_hunit : Bool
  deriving DecidableEq

/-- The entries of the request's `kwargs` dict that determine what a Pk
collector computes when invoked
(`CAMBdata.get_linear_matter_power_spectrum(..., nonlinear=..., var1=...,
var2=...)`).  The remaining entries are constants after the branch runs
(`hubble_units`/`k_hunit` forced to `False`, `k_max`/`z`/`vars_pairs`
popped). -/
structure PkKwargs where
  nonlinear : Bool
  var1 : String
  var2 : String
  deriving DecidableEq

/-- Collector key `("Pk_grid", kwargs["nonlinear"]) + tuple(sorted(pair))`
(line 366). -/
abbrev PkKey : Type := String × Bool × String × String

def pkProductName : String := "Pk_grid"

/-- Lexicographic code-point comparison of character lists, the order Python
uses to compare strings. -/
def charListLt : List Char → List Char → Bool
  | [], [] => false
  | [], _ :: _ => true
  | _ :: _, [] => false
  | a :: as, b :: bs =>
      if a.val < b.val then true
      else if b.val < a.val then false
      else charListLt as bs

/-- Python string comparison `a < b` (lexicographic by code point). -/
def strLt (a b : String) : Bool := charListLt a.data b.data

/-- Python `sorted(pair)` on a two-string tuple. -/
def sortPair (p : String × String) : String × String :=
  if strLt p.2 p.1 then (p.2, p.1) else (p.1, p.2)

/-- The default variable pair of line 351. -/
def defaultVarsPair : String × String := (("delta_tot"), ("delta_tot"))

/-- The slice of adapter state the Pk branch touches. -/
structure PkState where
  kmax : ℚ
  redshifts : List ℚ
  collectors : List (PkKey × PkKwargs)
  nonLinearPk : Bool
  needsPerts : Bool
  deriving DecidableEq

inductive NeedsError where
  | hubbleUnitsNotSupported
  deriving DecidableEq

/-- The `Pk_interpolator`/`Pk_grid` branch of `camb.needs` (lines 348-370):
merge `kmax` (running maximum against `extra_args.get("kmax", 0)`); merge the
perturbation redshift grid; substitute the default variable pair when
`vars_pairs` is falsy; raise if `hubble_units` or `k_hunit` is requested
(results are cached in raw units only); or-in `non_linear_pk`; then, for each
pair, store a collector under the composite key.  The Python loop mutates ONE
`kwargs` dict (built once by `deepcopy(v)` before the loop) and every
`Collector` namedtuple stores a reference to that same dict, so when the
collectors are later invoked each of them observes the loop's final
`var1`/`var2` assignment — the last pair of the request.  `sharedVars` below
is that final assignment. -/
def pkNeedsBranch (st : PkState) (v : PkReq) : Except NeedsError PkState :=
  let kmax := max v.k_max st.kmax
  let redshifts := add_to_redshifts v.z st.redshifts
  let pairs := if v.vars_pairs.isEmpty then [defaultVarsPair] else v.vars_pairs
  if v.hubble_units || v.k_hunit then
    .error .hubbleUnitsNotSupported
  else
    let nonLinearPk := st.nonLinearPk || v.nonlinear
    let sharedVars := pairs.getLastD defaultVarsPair
    let collectors := pairs.foldl
      (fun cs p =>
        insertA cs (pkProductName, v.nonlinear, (sortPair p).1, (sortPair p).2)
          { nonlinear := v.nonlinear, var1 := sharedVars.1, var2 := sharedVars.2 })
      st.collectors
    .ok { kmax := kmax, redshifts := redshifts, collectors := collectors,
          nonLinearPk := nonLinearPk, needsPerts := true }

/-- The collector registry resulting from a Pk branch run (empty on error). -/
def pkCollectorsOf (r : Except NeedsError PkState) : List (PkKey × PkKwargs) :=
  match r with
  | .ok st => st.collectors
  | .error _ => []

/-- Adapter state with an empty collector registry and default `extra_args`. -/
def pkState0 : PkState :=
  { kmax := 0, redshifts := [], collectors := [], nonLinearPk := false,
    needsPerts := false }

/-- A linear `Pk_grid` request for the two variable pairs
`(delta_tot, delta_tot)` and `(delta_nonu, delta_nonu)`. -/
def reqC2 : PkReq :=
  { k_max := 10, z := [0],
    vars_pairs := [(("delta_tot"), ("delta_tot")), (("delta_nonu"), ("delta_nonu"))],
    nonlinear := false, hubble_units := false, k_hunit := false }

/-! ## Error dispatch of the evaluation entry points
(`camb.calculate` lines 437-472, `camb.set` lines 626-705,
`CambTransfers.calculate` lines 811-842)

Exception classes of the external solver as referenced by the adapter
(`camb.baseconfig`): `CAMBError(Exception)`, `CAMBValueError(ValueError)`,
`CAMBUnknownArgumentError(ValueError)`, `CAMBParamRangeError(CAMBValueError)`.
None of the latter three subclasses `CAMBError`, so `except CAMBError`
catches exactly the `CAMBError` class among them.
-/

inductive CambExcCls where
  | cambError
  | cambValueError
  | cambUnknownArgumentError
  | cambParamRangeError
  | otherExc
  deriving DecidableEq

/-- A solver-raised error: the Python class visible to the adapter's `except`
clauses, plus whether the actual cause is the recoverable "parameter out of
computable range" condition — semantic information the claims quantify over
but which the adapter cannot observe on a `CAMBError`. -/
structure SolverError where
  cls : CambExcCls
  outOfRange : Bool
  deriving DecidableEq

/-- The evaluated point's parameter values (`params_values_dict`,
`state["params"]`). -/
abbrev ParamsDict : Type := List (String × ℚ)

/-- Outcome of a calculate-stage call: success; `return False` (the
failed-evaluation, zero-likelihood signal, no exception raised); or a fatal
propagating error, carrying the offending parameter values exactly when the
adapter attaches them to the error/log. -/
inductive CalcOutcome where
  | success
  | failSignal
  | raiseErr (paramsDump : Option ParamsDict)
  deriving DecidableEq

inductive SetOutcome where
  | setOk
  | setFailed
  | setFatal (paramsDump : Option ParamsDict)
  deriving DecidableEq

/-- Error dispatch of `camb.set` (lines 626-705).
`except CAMBParamRangeError` (686-692): fatal `LoggedError` carrying
`params_values_dict` when stopping on error, otherwise fall through to
`return False`.  `except (CAMBValueError, CAMBError)` (693-700): when
stopping, the parameter values are logged and the exception re-raised;
otherwise fall through to `return False`.  `except CAMBUnknownArgumentError`
(701-704): always a fatal `LoggedError` naming the unrecognized argument
names, with no dump of the point's parameter values.  Any other exception
class is uncaught and propagates bare. -/
def cobaya_set (pv : ParamsDict) (exc : Option SolverError) (stopAtError : Bool) :
    SetOutcome :=
  match exc with
  | none => .setOk
  | some e =>
      if e.cls = .cambParamRangeError then
        if stopAtError then .setFatal (some pv) else .setFailed
      else if e.cls = .cambValueError ∨ e.cls = .cambError then
        if stopAtError then .setFatal (some pv) else .setFailed
      else if e.cls = .cambUnknownArgumentError then
        .setFatal none
      else
        .setFatal none

/-- Error dispatch of `camb.calculate` (lines 437-472): the body is wrapped
in a single `except CAMBError` clause; when stopping on error the parameter
values are logged and the exception re-raised; otherwise ANY `CAMBError` is
"assumed to be a parameter-out-of-range error" (comment at line 468) and the
evaluation returns `False`.  Exceptions of any other class are uncaught and
propagate bare. -/
def camb_calculate (pv : ParamsDict) (exc : Option SolverError) (stopAtError : Bool) :
    CalcOutcome :=
  match exc with
  | none => .success
  | some e =>
      if e.cls = .cambError then
        if stopAtError then .raiseErr (some pv) else .failSignal
      else
        .raiseErr none

/-- Error dispatch of `CambTransfers.calculate` (lines 811-842): first
`camb.set`; a falsy result is passed on as the failed-evaluation signal
(lines 814-817); then the transfer computation, wrapped in `except CAMBError`
exactly as in `camb.calculate` (lines 829-842). -/
def cambTransfers_calculate (pv : ParamsDict) (setExc computeExc : Option SolverError)
    (stopAtError : Bool) : CalcOutcome :=
  match cobaya_set pv setExc stopAtError with
  | .setFatal d => .raiseErr d
  | .setFailed => .failSignal
  | .setOk =>
      match computeExc with
      | none => .success
      | some e =>
          if e.cls = .cambError then
            if stopAtError then .raiseErr (some pv) else .failSignal
          else
            .raiseErr none

def demoParams : ParamsDict := [(("H0"), 70)]

/-- The `CAMBOutputs` intermediates of one evaluation as read by
`_get_derived`: the results-provided derived mapping
(`results.get_derived_params()`, Python `None` when there are no results);
the matter-fluctuation amplitude of the last redshift bin
(`results.get_sigma8()[-1]`); attribute lookup on the solver parameter object
(`camb_params`); attribute lookup on the result object (`results`); and the
value returned by calling the zero-argument accessor method `get_<name>` on
`camb_params` (outer `none` when no such method exists, in which case the
code's `lambda: None` default makes the call return Python `None`). -/
structure Intermediates where
  derived : Option (List (String × Option ℚ))
  sigma8Last : ℚ
  paramsAttr : String → Option (Option ℚ)
  resultsAttr : String → Option (Option ℚ)
  accessors : String → Option (Option ℚ)

/-- `camb._get_derived` (lines 482-501): if the derived mapping is truthy
(non-`None` and non-empty) and holds a non-`None` entry for `p`, return it;
else the `sigma8` special case; else `getattr(camb_params, p)`; on
`AttributeError`, `getattr(results, p)`; on `AttributeError`,
`getattr(camb_params, "get_" + p, lambda: None)()`. -/
def get_derived (p : String) (im : Intermediates) : Option ℚ :=
  let step1 : Option ℚ :=
    match im.derived with
    | some d => if d.isEmpty then none else (lookupA d p).getD none
    | none => none
  match step1 with
  | some v => some v
  | none =>
      if p = ("sigma8") then some im.sigma8Last
      else
        match im.paramsAttr p with
        | some v => v
        | none =>
            match im.resultsAttr p with
            | some v => v
            | none => (im.accessors p).getD none

/-- `camb._get_derived_output` (lines 503-517): builds the derived mapping
for the output parameters in order, looking each up under `translate_param`
(modelled by `tr`) and raising `"Derived param '%s' not implemented"` naming
the first output parameter whose value is Python `None`. -/
def get_derived_output (ps : List String) (tr : String → String)
    (im : Intermediates) : Except String (List (String × ℚ)) :=
  match ps with
  | [] => .ok []
  | q :: rest =>
      match get_derived (tr q) im with
      | none => .error q
      | some v =>
          match get_derived_output rest tr im with
          | .error e => .error e
          | .ok l => .ok ((q, v) :: l)

/-- The claim's resolution chain, spelt strategy by strategy: (1) lookup in
the results-provided derived-parameter mapping, (2) the sigma8 special case
read from the last redshift bin, (3) attribute lookup on the solver
parameter object, (4) attribute lookup on the result object, (5) calling the
zero-argument accessor named `get_` plus the parameter name; the first
strategy producing a value wins. -/
def derivedSpecChain (p : String) (im : Intermediates) : Option ℚ :=
  let s1 : Option ℚ :=
    match im.derived with
    | some d => (lookupA d p).getD none
    | none => none
  let s2 : Option ℚ := if p = ("sigma8") then some im.sigma8Last else none
  let s3 : Option ℚ := (im.paramsAttr p).getD none
  let s4 : Option ℚ := (im.resultsAttr p).getD none
  let s5 : Option ℚ := (im.accessors p).getD none
  match s1 with
  | some v => some v
  | none =>
      match s2 with
      | some v => some v
      | none =>
          match s3 with
          | some v => some v
          | none =>
              match s4 with
              | some v => some v
              | none => s5

/-- A concrete intermediates instance: the results-provided mapping holds
`As`, the parameter object has an `ns` attribute, nothing else resolves. -/
def imW : Intermediates :=
  { derived := some [(("As"), some 3)],
    sigma8Last := 4/5,
    paramsAttr := fun q => if q = ("ns") then some (some (24/25)) else none,
    resultsAttr := fun _ => none,
    accessors := fun _ => none }

/-! ## Ambiguous expansion-rate check
(`CambTransfers.initialize_with_params`, camb.py lines 847-854) -/

inductive TransferErr where
  | ambiguousExpansionRate
  deriving DecidableEq

/-- The mutually redundant expansion-rate parameter names of line 851. -/
def thetaParams : List String := [("H0"), ("cosmomc_theta"), ("thetastar")]

/-- The check of `CambTransfers.initialize_with_params`: raise the fatal
"Can't pass more than one of H0, theta, cosmomc_theta to CAMB" error when
`len(set(self.input_params).intersection({"H0", "cosmomc_theta",
"thetastar"})) > 1`. -/
def transfersThetaCheck (input_params : List String) : Except TransferErr Unit :=
  if 1 < (input_params.dedup.filter (fun q => decide (q ∈ thetaParams))).length then
    .error .ambiguousExpansionRate
  else
    .ok ()

/-! ## CMB-spectra unit factors (`camb.get_Cl`, camb.py lines 519-536) -/

inductive ClError where
  | unitsNotRecognized (units : String) (accepted : List String)
  deriving DecidableEq

/-- The `units_factors` dict of lines 529-531 (`temp` is the evaluation's
`TCMB` in Kelvin; `muK2` scales by `temp * 1.e6`). -/
def clUnitsFactors (temp : ℚ) : List (String × ℚ) :=
  [(("1"), 1), (("muK2"), temp * 1000000), (("K2"), temp)]

/-- The unit-factor selection of `get_Cl` (lines 532-536): a `KeyError` on
the dict lookup becomes the fatal `"Units '%s' not recognized. Use one of
%s"` error, naming the requested unit and listing the accepted units in dict
order. -/
def get_Cl_units_factor (units : String) (temp : ℚ) : Except ClError ℚ :=
  match lookupA (clUnitsFactors temp) units with
  | some f => .ok f
  | none => .error (.unitsNotRecognized units ((clUnitsFactors temp).map Prod.fst))

theorem npUnique_nil : npUnique [] = [] := rfl

theorem npUnique_nodup (l : List ℚ) : (npUnique l).Nodup :=
  ((List.perm_insertionSort _ _).nodup_iff).mpr l.nodup_dedup

theorem npUnique_sorted (l : List ℚ) : (npUnique l).Sorted (· ≤ ·) :=
  List.sorted_insertionSort _ _

theorem mem_npUnique {a : ℚ} {l : List ℚ} : a ∈ npUnique l ↔ a ∈ l := by
  unfold npUnique
  rw [(List.perm_insertionSort _ _).mem_iff, List.mem_dedup]

theorem npUnique_sorted_lt (l : List ℚ) : (npUnique l).Sorted (· < ·) := by
  have h1 : (npUnique l).Pairwise (· ≤ ·) := npUnique_sorted l
  have h2 : (npUnique l).Pairwise (· ≠ ·) := npUnique_nodup l
  exact (h1.and h2).imp fun hab => lt_of_le_of_ne hab.1 hab.2

/-- Two `np.unique` results agree as soon as their inputs have the same
elements. -/
theorem npUnique_eq_of_mem_iff {l₁ l₂ : List ℚ} (h : ∀ a, a ∈ l₁ ↔ a ∈ l₂) :
    npUnique l₁ = npUnique l₂ :=
  List.eq_of_perm_of_sorted
    ((List.perm_ext_iff_of_nodup (npUnique_nodup l₁) (npUnique_nodup l₂)).mpr
      fun a => by rw [mem_npUnique, mem_npUnique]; exact h a)
    (npUnique_sorted l₁) (npUnique_sorted l₂)

theorem npSort_npUnique (l : List ℚ) : npSort (npUnique l) = npUnique l :=
  (npUnique_sorted l).insertionSort_eq

theorem add_to_redshifts_eq (z existing : List ℚ) :
    add_to_redshifts z existing = (npUnique (z ++ existing)).reverse := by
  rw [add_to_redshifts, npSort_npUnique]

theorem perturbationGrid_fold (reqs : List (List ℚ)) (X : List ℚ) :
    reqs.foldl (fun s z => add_to_redshifts z s) ((npUnique X).reverse)
      = (npUnique (X ++ reqs.flatten)).reverse := by
  induction reqs generalizing X with
  | nil => simp
  | cons z rest ih =>
      rw [List.foldl_cons]
      have hstep : add_to_redshifts z ((npUnique X).reverse)
          = (npUnique (X ++ z)).reverse := by
        rw [add_to_redshifts_eq]
        congr 1
        apply npUnique_eq_of_mem_iff
        intro a
        simp [mem_npUnique, or_comm]
      rw [hstep, ih, List.flatten_cons, List.append_assoc]

theorem perturbationGrid_eq (reqs : List (List ℚ)) :
    perturbationGrid reqs = (npUnique reqs.flatten).reverse := by
  have h := perturbationGrid_fold reqs []
  simpa [perturbationGrid, npUnique_nil] using h

theorem mem_flatten_of_perm {L₁ L₂ : List (List ℚ)} (h : List.Perm L₁ L₂) (a : ℚ) :
    a ∈ L₁.flatten ↔ a ∈ L₂.flatten := by
  simp only [List.mem_flatten]
  exact ⟨fun ⟨l, hl, ha⟩ => ⟨l, h.mem_iff.mp hl, ha⟩,
         fun ⟨l, hl, ha⟩ => ⟨l, h.mem_iff.mpr hl, ha⟩⟩

theorem perturbationGrid_perm {reqs reqs₂ : List (List ℚ)}
    (h : List.Perm reqs reqs₂) : perturbationGrid reqs = perturbationGrid reqs₂ := by
  rw [perturbationGrid_eq, perturbationGrid_eq]
  exact congrArg _ (npUnique_eq_of_mem_iff (mem_flatten_of_perm h))

theorem backgroundGrid_fold (reqs : List (List ℚ)) (Y : List ℚ) :
    reqs.foldl (fun s z => some (combine_z s z)) (some (npUnique Y))
      = some (npUnique (Y ++ reqs.flatten)) := by
  induction reqs generalizing Y with
  | nil => simp
  | cons z rest ih =>
      rw [List.foldl_cons]
      have hstep : combine_z (some (npUnique Y)) z = npUnique (Y ++ z) := by
        rw [combine_z]
        have : npUnique (npUnique Y ++ z) = npUnique (Y ++ z) := by
          apply npUnique_eq_of_mem_iff
          intro a
          simp [mem_npUnique]
        rw [this, npSort_npUnique]
      rw [hstep, ih, List.flatten_cons, List.append_assoc]

/-- With at least two merged requests, the background grid is the
sorted-ascending deduplicated union. -/
theorem backgroundGrid_cons₂ (z₁ z₂ : List ℚ) (rest : List (List ℚ)) :
    backgroundGrid (z₁ :: z₂ :: rest)
      = some (npUnique ((z₁ :: z₂ :: rest).flatten)) := by
  have hsecond : combine_z (some (combine_z none z₁)) z₂ = npUnique (z₁ ++ z₂) := by
    rw [combine_z, combine_z]
    have : npUnique (npSort z₁ ++ z₂) = npUnique (z₁ ++ z₂) := by
      apply npUnique_eq_of_mem_iff
      intro a
      simp [npSort, (List.perm_insertionSort _ _).mem_iff]
    rw [this, npSort_npUnique]
  show (z₁ :: z₂ :: rest).foldl (fun s z => some (combine_z s z)) none = _
  rw [List.foldl_cons, List.foldl_cons, hsecond, backgroundGrid_fold,
      List.flatten_cons, List.flatten_cons, List.append_assoc]

theorem backgroundGrid_perm {reqs reqs₂ : List (List ℚ)}
    (h : List.Perm reqs reqs₂) : backgroundGrid reqs = backgroundGrid reqs₂ := by
  cases reqs with
  | nil =>
      have : reqs₂ = [] := h.symm.eq_nil
      rw [this]
  | cons z₁ rest₁ =>
      cases rest₁ with
      | nil =>
          have : reqs₂ = [z₁] := List.perm_singleton.mp h.symm
          rw [this]
      | cons z₂ rest₂ =>
          cases reqs₂ with
          | nil => exact absurd h.eq_nil (by simp)
          | cons w₁ rest₃ =>
              cases rest₃ with
              | nil =>
                  have hlen := h.length_eq
                  simp at hlen
              | cons w₂ rest₄ =>
                  rw [backgroundGrid_cons₂, backgroundGrid_cons₂]
                  exact congrArg _ (npUnique_eq_of_mem_iff (mem_flatten_of_perm h))

/-- C1: the claim fails on the code. A single background-distance request
whose redshift list contains a duplicate is only sorted by `_combine_z`
(`np.sort(np.atleast_1d(v["z"]))`, no `np.unique`), so the grid passed to the
solver is not the deduplicated union the claim demands. -/
theorem C1_counterexample :
    backgroundGrid [[(1 : ℚ), 1]] = some [(1 : ℚ), 1] ∧
    npUnique ([[(1 : ℚ), 1]].flatten) = [(1 : ℚ)] ∧
    ([(1 : ℚ), 1] : List ℚ) ≠ [(1 : ℚ)] := by
  refine ⟨?_, ?_, ?_⟩ <;> decide

/-- C1 (amended): the perturbation redshift grid (`fsigma8`,
`Pk_interpolator`/`Pk_grid`) always equals the deduplicated union of all
requested redshifts sorted descending, independently of request order; the
background-distance grid (`Hubble`, `angular_diameter_distance`,
`comoving_radial_distance`) equals the deduplicated union sorted ascending
whenever at least two requests have been merged, and is also request-order
independent; a lone background request is merely sorted, with duplicates
retained. -/
theorem C1_merge_amended (reqs reqs₂ : List (List ℚ)) :
    perturbationGrid reqs = (npUnique reqs.flatten).reverse ∧
    (perturbationGrid reqs).Sorted (· > ·) ∧
    (∀ a, a ∈ perturbationGrid reqs ↔ a ∈ reqs.flatten) ∧
    (List.Perm reqs reqs₂ → perturbationGrid reqs = perturbationGrid reqs₂) ∧
    (2 ≤ reqs.length → backgroundGrid reqs = some (npUnique reqs.flatten)) ∧
    (List.Perm reqs reqs₂ → backgroundGrid reqs = backgroundGrid reqs₂) := by
  refine ⟨perturbationGrid_eq reqs, ?_, ?_, perturbationGrid_perm, ?_,
    backgroundGrid_perm⟩
  · rw [perturbationGrid_eq]
    exact List.pairwise_reverse.mpr (npUnique_sorted_lt reqs.flatten)
  · intro a
    rw [perturbationGrid_eq, List.mem_reverse, mem_npUnique]
  · intro hlen
    match reqs, hlen with
    | z₁ :: z₂ :: rest, _ => exact backgroundGrid_cons₂ z₁ z₂ rest

/-- C1 amended, witnessed at two concrete two-request sequences. -/
theorem C1_merge_amended_witness :
    backgroundGrid [[(2 : ℚ), 1], [1, 3]]
      = some (npUnique ([[(2 : ℚ), 1], [1, 3]].flatten)) ∧
    perturbationGrid [[(2 : ℚ), 1], [1, 3]] = perturbationGrid [[(1 : ℚ), 3], [2, 1]] :=
  ⟨(C1_merge_amended [[(2 : ℚ), 1], [1, 3]] [[(1 : ℚ), 3], [2, 1]]).2.2.2.2.1
      (by decide),
   (C1_merge_amended [[(2 : ℚ), 1], [1, 3]] [[(1 : ℚ), 3], [2, 1]]).2.2.2.1
      (by decide)⟩

theorem needsStep_mono_wantCMB {s : FlagState} (r : FlagReq)
    (h : s.wantCMB = true) : (needsStep s r).wantCMB = true := by
  cases r <;> simp [needsStep, h]

theorem needsStep_mono_needsLensingCross {s : FlagState} (r : FlagReq)
    (h : s.needsLensingCross = true) : (needsStep s r).needsLensingCross = true := by
  cases r <;> simp [needsStep, h]

theorem needsStep_wantTensors (s : FlagState) (r : FlagReq) :
    (needsStep s r).wantTensors = s.wantTensors := by
  cases r <;> simp [needsStep]

theorem needsStep_mono_nonLinearPk {s : FlagState} (r : FlagReq)
    (h : s.nonLinearPk = true) : (needsStep s r).nonLinearPk = true := by
  cases r <;> simp [needsStep, h]

theorem needsStep_lpaOK {s : FlagState} (r : FlagReq) (h : lpaOK s) :
    lpaOK (needsStep s r) := by
  cases r with
  | cl lm cls =>
      simp only [needsStep, lpaOK]
      split
      · exact Or.inr ⟨1, rfl, le_refl 1⟩
      · exact h
  | sourceCl lm nl lim => exact h
  | pk nl => exact h
  | fsigma8 => exact h
  | background => exact h

theorem needsStep_mono_nonLinearSources {s : FlagState} (r : FlagReq)
    (hl : lpaOK s) (h : s.nonLinearSources = true) :
    (needsStep s r).nonLinearSources = true := by
  cases r with
  | cl lm cls =>
      simp only [needsStep, decide_eq_true_eq]
      split
      · simp
      · rcases hl with hnone | ⟨a, ha, h1a⟩
        · simp [hnone]
        · simp [ha, h1a]
  | sourceCl lm nl lim => simp [needsStep, h]
  | pk nl => exact h
  | fsigma8 => exact h
  | background => exact h

theorem processNeeds_flags (s : FlagState) (reqs : List FlagReq) :
    (s.wantCMB = true → (processNeeds s reqs).wantCMB = true) ∧
    (s.needsLensingCross = true → (processNeeds s reqs).needsLensingCross = true) ∧
    ((processNeeds s reqs).wantTensors = s.wantTensors) ∧
    (s.nonLinearPk = true → (processNeeds s reqs).nonLinearPk = true) ∧
    (lpaOK s → lpaOK (processNeeds s reqs)) ∧
    (lpaOK s → s.nonLinearSources = true →
      (processNeeds s reqs).nonLinearSources = true) := by
  induction reqs generalizing s with
  | nil => exact ⟨id, id, rfl, id, id, fun _ => id⟩
  | cons r rest ih =>
      have hfold : processNeeds s (r :: rest) = processNeeds (needsStep s r) rest := rfl
      rw [hfold]
      obtain ⟨i1, i2, i3, i4, i5, i6⟩ := ih (needsStep s r)
      refine ⟨?_, ?_, ?_, ?_, ?_, ?_⟩
      · exact fun h => i1 (needsStep_mono_wantCMB r h)
      · exact fun h => i2 (needsStep_mono_needsLensingCross r h)
      · rw [i3, needsStep_wantTensors]
      · exact fun h => i4 (needsStep_mono_nonLinearPk r h)
      · exact fun h => i5 (needsStep_lpaOK r h)
      · exact fun hl h =>
          i6 (needsStep_lpaOK r hl) (needsStep_mono_nonLinearSources r hl h)

/-- C5 counterexample.  With a user-configured
`extra_args = {lens_potential_accuracy: 0}`, a first `needs` call requesting
`source_Cl` with `non_linear: True` turns `non_linear_sources` on; a second
`needs` call that adds a `Cl` requirement reprocesses the accumulated
requirements and the `Cl` branch *reassigns*
`non_linear_sources = extra_args.get("lens_potential_accuracy", 1) >= 1`,
turning the flag back off — so the flag is not monotonic. -/
theorem C5_counterexample :
    (processCalls (initFlagState (some 0))
        [[FlagReq.sourceCl none true true]]).nonLinearSources = true ∧
    (processCalls (initFlagState (some 0))
        [[FlagReq.sourceCl none true true],
         [FlagReq.sourceCl none true true,
          FlagReq.cl 100 [("tt")]]]).nonLinearSources = false := by
  refine ⟨?_, ?_⟩ <;> decide

/-- C5 (amended): across any sequence of requirement-aggregation calls, the
flags wants-CMB (`Want_CMB`), wants-lensing-cross-terms
(`_needs_lensing_cross`), wants-tensor-modes (`WantTensors`, which `needs`
never touches) and non-linear-matter-power (`non_linear_pk`) are monotonic:
once on, no later requirement turns them off.  The non-linear-sources flag
(`non_linear_sources`) is monotonic provided the configured
`lens_potential_accuracy` is unset or at least 1; a configured value below 1
lets a later `Cl` processing reset it to off (see the counterexample). -/
theorem C5_flags_amended (s : FlagState) (calls : List (List FlagReq)) :
    (s.wantCMB = true → (processCalls s calls).wantCMB = true) ∧
    (s.needsLensingCross = true → (processCalls s calls).needsLensingCross = true) ∧
    ((processCalls s calls).wantTensors = s.wantTensors) ∧
    (s.nonLinearPk = true → (processCalls s calls).nonLinearPk = true) ∧
    (lpaOK s → s.nonLinearSources = true →
      (processCalls s calls).nonLinearSources = true) := by
  induction calls generalizing s with
  | nil => exact ⟨id, id, rfl, id, fun _ => id⟩
  | cons c rest ih =>
      have hfold : processCalls s (c :: rest) = processCalls (processNeeds s c) rest := rfl
      rw [hfold]
      obtain ⟨p1, p2, p3, p4, p5, p6⟩ := processNeeds_flags s c
      obtain ⟨i1, i2, i3, i4, i5⟩ := ih (processNeeds s c)
      refine ⟨fun h => i1 (p1 h), fun h => i2 (p2 h), ?_, fun h => i4 (p4 h),
        fun hl h => i5 (p5 hl) (p6 hl h)⟩
      rw [i3, p3]

/-- C5 amended, witnessed at a concrete state with every flag on and a
two-call aggregation sequence. -/
theorem C5_flags_amended_witness :
    (processCalls
        { initFlagState none with
          wantCMB := true, wantCls := true, wantTensors := true,
          needsLensingCross := true, nonLinearSources := true,
          nonLinearPk := true }
        [[FlagReq.cl 10 []], [FlagReq.cl 10 [], FlagReq.pk true]]).wantCMB = true ∧
    (processCalls
        { initFlagState none with
          wantCMB := true, wantCls := true, wantTensors := true,
          needsLensingCross := true, nonLinearSources := true,
          nonLinearPk := true }
        [[FlagReq.cl 10 []], [FlagReq.cl 10 [], FlagReq.pk true]]).nonLinearSources
      = true :=
  ⟨(C5_flags_amended _ _).1 (by decide),
   (C5_flags_amended _ _).2.2.2.2 (Or.inl (by decide)) (by decide)⟩

/-! ## Matter-power collectors (`camb.needs`, Pk branch, lines 348-370) -/

/-- C2: evaluating the code at a two-pair request.  Two distinct collector
entries are created, keyed by `("Pk_grid", nonlinear, sorted pair)`, but both
hold the same shared `kwargs` dict, whose final `var1`/`var2` are those of the
LAST pair: the collector keyed for `(delta_tot, delta_tot)` would be invoked
with `var1 = var2 = "delta_nonu"`, so the first pair's spectrum is never
computed and is not independently retrievable. -/
theorem C2_shared_kwargs_eval :
    (pkCollectorsOf (pkNeedsBranch pkState0 reqC2)).map Prod.fst
      = [(pkProductName, false, ("delta_tot"), ("delta_tot")),
         (pkProductName, false, ("delta_nonu"), ("delta_nonu"))] ∧
    ((pkProductName, false, ("delta_tot"), ("delta_tot")) : PkKey)
      ≠ (pkProductName, false, ("delta_nonu"), ("delta_nonu")) ∧
    lookupA (pkCollectorsOf (pkNeedsBranch pkState0 reqC2))
        (pkProductName, false, ("delta_tot"), ("delta_tot"))
      = some { nonlinear := false, var1 := ("delta_nonu"), var2 := ("delta_nonu") } := by
  refine ⟨?_, ?_, ?_⟩ <;> decide

/-- C6: a `Pk_interpolator`/`Pk_grid` request asking for Hubble-relative
units (`hubble_units` or `k_hunit` true) makes the aggregator raise the
unsupported-unit error; with default units the branch succeeds with no unit
error. -/
theorem C6_pk_units (st : PkState) (v : PkReq) :
    (v.hubble_units = true ∨ v.k_hunit = true →
      pkNeedsBranch st v = .error .hubbleUnitsNotSupported) ∧
    (v.hubble_units = false → v.k_hunit = false →
      (pkNeedsBranch st v).isOk = true) := by
  constructor
  · intro h
    rcases h with h | h <;> simp [pkNeedsBranch, h]
  · intro h1 h2
    simp [pkNeedsBranch, h1, h2, Except.isOk, Except.toBool]

/-- C6 witnessed at a concrete request with and without Hubble units. -/
theorem C6_pk_units_witness :
    pkNeedsBranch pkState0 { reqC2 with hubble_units := true }
      = .error .hubbleUnitsNotSupported ∧
    (pkNeedsBranch pkState0 reqC2).isOk = true :=
  ⟨(C6_pk_units pkState0 { reqC2 with hubble_units := true }).1 (Or.inl rfl),
   (C6_pk_units pkState0 reqC2).2 rfl rfl⟩

/-- C10: a `Pk_interpolator`/`Pk_grid` request whose `vars_pairs` is empty or
absent gets the single default pair `(delta_tot, delta_tot)` substituted
(line 351), so on a registry with no collectors exactly one collector is
created, keyed `("Pk_grid", nonlinear, "delta_tot", "delta_tot")` and invoked
with `var1 = var2 = "delta_tot"`. -/
theorem C10_default_pair (nl : Bool) (km rkm : ℚ) (z rz : List ℚ) (npk npe : Bool) :
    ∃ st : PkState,
      pkNeedsBranch
          { kmax := rkm, redshifts := rz, collectors := [],
            nonLinearPk := npk, needsPerts := npe }
          { k_max := km, z := z, vars_pairs := [], nonlinear := nl,
            hubble_units := false, k_hunit := false }
        = .ok st ∧
      st.collectors
        = [((pkProductName, nl, ("delta_tot"), ("delta_tot")),
            { nonlinear := nl, var1 := ("delta_tot"), var2 := ("delta_tot") })] := by
  refine ⟨_, rfl, ?_⟩
  cases nl <;> rfl

/-- C3 counterexample.  An internal solver fault signalled as a `CAMBError`
(not the recoverable out-of-range condition) with `stop_at_error` disabled is
swallowed by `camb.calculate` as a failed-evaluation signal — no fatal error
carrying the parameter values is propagated, contradicting the claim.  (The
module's own docstring, lines 68-72, documents this: any `CAMBError` raised
during sampling gives zero likelihood and the run continues.) -/
theorem C3_counterexample :
    ({ cls := CambExcCls.cambError, outOfRange := false } : SolverError).outOfRange
      = false ∧
    camb_calculate demoParams
        (some { cls := CambExcCls.cambError, outOfRange := false }) false
      = CalcOutcome.failSignal ∧
    CalcOutcome.failSignal ≠ CalcOutcome.raiseErr (some demoParams) := by
  refine ⟨rfl, ?_, ?_⟩ <;> decide

/-- C3 (amended): during a calculate operation, a solver error whose class is
outside `CAMBError` propagates fatally regardless of the stop-at-error flag
(without a parameter dump); an error of the `CAMBError` class — whatever its
actual cause — is treated as the recoverable condition: fatal with the
offending parameter values when stop-at-error is enabled, otherwise a
failed-evaluation signal. -/
theorem C3_error_dispatch_amended (e : SolverError) (stop : Bool) (pv : ParamsDict) :
    (e.cls ≠ CambExcCls.cambError →
      camb_calculate pv (some e) stop = CalcOutcome.raiseErr none ∧
      cambTransfers_calculate pv none (some e) stop = CalcOutcome.raiseErr none) ∧
    (e.cls = CambExcCls.cambError →
      camb_calculate pv (some e) stop
        = (if stop then CalcOutcome.raiseErr (some pv) else CalcOutcome.failSignal) ∧
      cambTransfers_calculate pv none (some e) stop
        = (if stop then CalcOutcome.raiseErr (some pv) else CalcOutcome.failSignal)) := by
  constructor
  · intro h
    constructor <;> simp [camb_calculate, cambTransfers_calculate, cobaya_set, h]
  · intro h
    constructor <;> simp [camb_calculate, cambTransfers_calculate, cobaya_set, h]

/-- C3 amended, witnessed at a `CAMBValueError` fault (flag off) and a
`CAMBError` (flag on). -/
theorem C3_error_dispatch_amended_witness :
    camb_calculate demoParams
        (some { cls := CambExcCls.cambValueError, outOfRange := false }) false
      = CalcOutcome.raiseErr none ∧
    camb_calculate demoParams
        (some { cls := CambExcCls.cambError, outOfRange := true }) true
      = CalcOutcome.raiseErr (some demoParams) := by
  refine ⟨((C3_error_dispatch_amended
      { cls := CambExcCls.cambValueError, outOfRange := false } false demoParams).1
      (by decide)).1, ?_⟩
  have h := ((C3_error_dispatch_amended
      { cls := CambExcCls.cambError, outOfRange := true } true demoParams).2 rfl).1
  simpa using h

/-- C4: when the solver raises its recoverable out-of-range error
(`CAMBParamRangeError` during `camb.set`), the evaluation with stop-at-error
disabled yields the failed-evaluation signal (falsy return, no exception),
and with the flag enabled a fatal error carrying the point's parameter
values (`LoggedError("Out of bound parameters: %r", params_values_dict)`). -/
theorem C4_range_error (pv : ParamsDict) (ce : Option SolverError) :
    cobaya_set pv
        (some { cls := CambExcCls.cambParamRangeError, outOfRange := true }) false
      = SetOutcome.setFailed ∧
    cobaya_set pv
        (some { cls := CambExcCls.cambParamRangeError, outOfRange := true }) true
      = SetOutcome.setFatal (some pv) ∧
    cambTransfers_calculate pv
        (some { cls := CambExcCls.cambParamRangeError, outOfRange := true }) ce false
      = CalcOutcome.failSignal ∧
    cambTransfers_calculate pv
        (some { cls := CambExcCls.cambParamRangeError, outOfRange := true }) ce true
      = CalcOutcome.raiseErr (some pv) := by
  refine ⟨rfl, rfl, ?_, ?_⟩ <;> simp [cambTransfers_calculate, cobaya_set]

/-! ## Derived-parameter resolution (`camb._get_derived` lines 482-501,
`camb._get_derived_output` lines 503-517)

Python values held by the solver's objects are modelled as `Option ℚ`
(`none` = Python `None`); an attribute lookup yields outer `none` when the
attribute does not exist (Python raises `AttributeError`).
-/

/-- On any point where the two attribute stores do not hold a literal Python
`None` (a well-formedness condition on the solver objects: their attributes,
when present, carry actual values), the code's fallback cascade equals the
claim's five-strategy first-success chain. -/
theorem get_derived_eq_chain (p : String) (im : Intermediates)
    (h1 : im.paramsAttr p ≠ some none) (h2 : im.resultsAttr p ≠ some none) :
    get_derived p im = derivedSpecChain p im := by
  unfold get_derived derivedSpecChain
  have hlook : ∀ d : List (String × Option ℚ),
      (if d.isEmpty then (none : Option ℚ) else (lookupA d p).getD none)
        = (lookupA d p).getD none := by
    intro d
    cases d with
    | nil => rfl
    | cons a rest => rfl
  have htail :
      (match im.paramsAttr p with
       | some v => v
       | none =>
           match im.resultsAttr p with
           | some v => v
           | none => (im.accessors p).getD none)
        = (match (im.paramsAttr p).getD none with
           | some v => some v
           | none =>
               match (im.resultsAttr p).getD none with
               | some v => some v
               | none => (im.accessors p).getD none) := by
    rcases ha : im.paramsAttr p with _ | pv
    · rcases hb : im.resultsAttr p with _ | qv
      · rfl
      · cases qv with
        | none => exact absurd hb h2
        | some v => rfl
    · cases pv with
      | none => exact absurd ha h1
      | some v => rfl
  rcases hd : im.derived with _ | d
  · simp only
    by_cases hp : p = ("sigma8")
    · simp [hp]
    · simp only [if_neg hp]
      exact htail
  · simp only [hlook d]
    rcases hl : (lookupA d p).getD none with _ | v
    · simp only
      by_cases hp : p = ("sigma8")
      · simp [hp]
      · simp only [if_neg hp]
        exact htail
    · rfl

/-- C7: under the well-formedness condition that present attributes carry
actual values, derived-parameter resolution follows exactly the claimed
five-strategy order with first success returned, and when no strategy
resolves, `_get_derived_output` raises the missing-derived-parameter error
naming exactly that parameter. -/
theorem C7_derived_chain (p0 p : String) (tr : String → String)
    (im : Intermediates) (htr : tr p0 = p)
    (h1 : im.paramsAttr p ≠ some none) (h2 : im.resultsAttr p ≠ some none) :
    get_derived p im = derivedSpecChain p im ∧
    get_derived_output [p0] tr im
      = (match derivedSpecChain p im with
         | none => Except.error p0
         | some v => Except.ok [(p0, v)]) := by
  have hmain := get_derived_eq_chain p im h1 h2
  refine ⟨hmain, ?_⟩
  simp only [get_derived_output, htr, hmain]

/-- C7 witnessed at `imW` and the parameter name `ns` (identity
translation). -/
theorem C7_derived_chain_witness :
    get_derived ("ns") imW = derivedSpecChain ("ns") imW ∧
    get_derived_output [("ns")] (fun q => q) imW
      = (match derivedSpecChain ("ns") imW with
         | none => Except.error ("ns")
         | some v => Except.ok [(("ns"), v)]) :=
  C7_derived_chain ("ns") ("ns") (fun q => q) imW rfl (by decide) (by decide)

theorem one_lt_length_of_two_mem {α : Type} {l : List α} {a b : α}
    (ha : a ∈ l) (hb : b ∈ l) (hab : a ≠ b) : 1 < l.length := by
  cases l with
  | nil => cases ha
  | cons x rest =>
      cases rest with
      | nil =>
          simp only [List.mem_singleton] at ha hb
          exact absurd (ha.trans hb.symm) hab
      | cons y rest₂ =>
          simp only [List.length_cons]
          omega

theorem two_mem_of_one_lt_length {α : Type} {l : List α} (hn : l.Nodup)
    (h : 1 < l.length) : ∃ a ∈ l, ∃ b ∈ l, a ≠ b := by
  match l, h with
  | a :: b :: rest, _ =>
      have hab : a ≠ b := by
        intro he
        exact (List.nodup_cons.mp hn).1 (by rw [he]; exact List.mem_cons_self b rest)
      exact ⟨a, List.mem_cons_self a (b :: rest), b,
        List.mem_cons_of_mem a (List.mem_cons_self b rest), hab⟩

/-- The membership reformulation of the distinct-count condition. -/
theorem theta_count_iff (ps : List String) :
    1 < (ps.dedup.filter (fun q => decide (q ∈ thetaParams))).length ↔
      ((("H0") ∈ ps ∧ ("cosmomc_theta") ∈ ps) ∨
       (("H0") ∈ ps ∧ ("thetastar") ∈ ps) ∨
       (("cosmomc_theta") ∈ ps ∧ ("thetastar") ∈ ps)) := by
  constructor
  · intro h
    obtain ⟨a, haL, b, hbL, hab⟩ :=
      two_mem_of_one_lt_length (ps.nodup_dedup.filter _) h
    have ha2 := List.mem_filter.mp haL
    have hb2 := List.mem_filter.mp hbL
    rw [List.mem_dedup] at ha2 hb2
    have haps := ha2.1
    have hbps := hb2.1
    have hA : a = ("H0") ∨ a = ("cosmomc_theta") ∨ a = ("thetastar") := by
      have := ha2.2
      simp [thetaParams] at this
      exact this
    have hB : b = ("H0") ∨ b = ("cosmomc_theta") ∨ b = ("thetastar") := by
      have := hb2.2
      simp [thetaParams] at this
      exact this
    rcases hA with rfl | rfl | rfl <;> rcases hB with rfl | rfl | rfl <;>
      first
        | exact absurd rfl hab
        | exact Or.inl ⟨haps, hbps⟩
        | exact Or.inl ⟨hbps, haps⟩
        | exact Or.inr (Or.inl ⟨haps, hbps⟩)
        | exact Or.inr (Or.inl ⟨hbps, haps⟩)
        | exact Or.inr (Or.inr ⟨haps, hbps⟩)
        | exact Or.inr (Or.inr ⟨hbps, haps⟩)
  · intro h
    rcases h with ⟨h1, h2⟩ | ⟨h1, h2⟩ | ⟨h1, h2⟩ <;>
      exact one_lt_length_of_two_mem
        (List.mem_filter.mpr ⟨List.mem_dedup.mpr h1, by decide⟩)
        (List.mem_filter.mpr ⟨List.mem_dedup.mpr h2, by decide⟩)
        (by decide)

/-- C8: `CambTransfers.initialize_with_params` raises the fatal
ambiguous-expansion-rate error exactly when more than one of `H0`,
`cosmomc_theta`, `thetastar` is supplied as an input parameter; with at most
one of them supplied the check passes. -/
theorem C8_theta_ambiguity (ps : List String) :
    (transfersThetaCheck ps = .error .ambiguousExpansionRate ↔
      ((("H0") ∈ ps ∧ ("cosmomc_theta") ∈ ps) ∨
       (("H0") ∈ ps ∧ ("thetastar") ∈ ps) ∨
       (("cosmomc_theta") ∈ ps ∧ ("thetastar") ∈ ps))) ∧
    (transfersThetaCheck ps = .ok () ↔
      ¬ ((("H0") ∈ ps ∧ ("cosmomc_theta") ∈ ps) ∨
         (("H0") ∈ ps ∧ ("thetastar") ∈ ps) ∨
         (("cosmomc_theta") ∈ ps ∧ ("thetastar") ∈ ps))) := by
  rw [← theta_count_iff]
  unfold transfersThetaCheck
  by_cases h : 1 < (ps.dedup.filter (fun q => decide (q ∈ thetaParams))).length <;>
    simp [h]

/-- C9: a units argument outside `{"1", "muK2", "K2"}` makes `get_Cl` raise
the fatal error naming that unit and listing the accepted units; any units
argument in the set selects a factor without a unit error. -/
theorem C9_units (u : String) (T : ℚ) :
    (u ∉ [("1"), ("muK2"), ("K2")] →
      get_Cl_units_factor u T
        = .error (.unitsNotRecognized u [("1"), ("muK2"), ("K2")])) ∧
    (u ∈ [("1"), ("muK2"), ("K2")] → (get_Cl_units_factor u T).isOk = true) := by
  constructor
  · intro h
    have k1 : ¬ (("1") : String) = u := fun he => h (by simp [← he])
    have k2 : ¬ (("muK2") : String) = u := fun he => h (by simp [← he])
    have k3 : ¬ (("K2") : String) = u := fun he => h (by simp [← he])
    simp [get_Cl_units_factor, clUnitsFactors, lookupA, k1, k2, k3]
  · intro h
    have h3 : u = ("1") ∨ u = ("muK2") ∨ u = ("K2") := by simpa using h
    rcases h3 with rfl | rfl | rfl <;> rfl

/-- C9 witnessed at the unrecognized unit `foo` and the accepted unit
`K2`. -/
theorem C9_units_witness :
    get_Cl_units_factor ("foo") 2
      = .error (.unitsNotRecognized ("foo") [("1"), ("muK2"), ("K2")]) ∧
    (get_Cl_units_factor ("K2") 2).isOk = true :=
  ⟨(C9_units ("foo") 2).1 (by decide), (C9_units ("K2") 2).2 (by decide)⟩

end CobayaCamb
